import Mathlib

/-!
Verification of the field-extraction and normalization logic of the
id_extractor repository (two scripts: frenchcarte.py and indian_passport.py).

Python strings are modelled as lists of characters (`PyStr`), restricted to
the ASCII range plus the accented Latin letters that actually occur in the
two scripts.  Python dictionaries are modelled as ordered association lists
(`FieldSet`) with the insertion-order / overwrite-in-place semantics of
Python dicts.  Each regular expression used by the scripts is hand-compiled
into a backtracking matcher over `PyStr` with the leftmost-search semantics
of `re.search` / the exact-shape semantics of `re.fullmatch`.  Fallible
Python code (calls that can raise, such as `int()` on a non-numeric string)
is modelled with `Option`, where `none` means an exception was raised.
-/

set_option autoImplicit false

/-- Python strings, modelled as lists of characters. -/
abbrev PyStr := List Char

/-- The character code of a character, as a natural number. -/
def chCode (c : Char) : Nat := c.toNat

/-- ASCII model of the whitespace characters stripped by `str.strip()` and
matched by the regex class backslash-s: space, tab, newline, vertical tab,
form feed, carriage return. -/
def pyWs (c : Char) : Bool := chCode c == 32 || (9 ≤ chCode c && chCode c ≤ 13)

/-- The decimal digits, as matched by the regex class backslash-d (ASCII model). -/
def isDigitCh (c : Char) : Bool := 48 ≤ chCode c && chCode c ≤ 57

/-- ASCII uppercase letters. -/
def isUpperCh (c : Char) : Bool := 65 ≤ chCode c && chCode c ≤ 90

/-- ASCII lowercase letters. -/
def isLowerCh (c : Char) : Bool := 97 ≤ chCode c && chCode c ≤ 122

/-- The accented Latin letters occurring in the scripts, lowercase. -/
def accentLower : PyStr := ['é', 'è', 'à', 'ù', 'ç']

/-- The accented Latin letters occurring in the scripts, uppercase. -/
def accentUpper : PyStr := ['É', 'È', 'À', 'Ù', 'Ç']

/-- Model of Python `str.lower` on one character (ASCII plus the accented
letters used by the scripts). -/
def lowerCh (c : Char) : Char :=
  if isUpperCh c then Char.ofNat (chCode c + 32)
  else if c = 'É' then 'é' else if c = 'È' then 'è' else if c = 'À' then 'à'
  else if c = 'Ù' then 'ù' else if c = 'Ç' then 'ç' else c

/-- Model of Python `str.upper` on one character (ASCII plus the accented
letters used by the scripts). -/
def upperCh (c : Char) : Char :=
  if isLowerCh c then Char.ofNat (chCode c - 32)
  else if c = 'é' then 'É' else if c = 'è' then 'È' else if c = 'à' then 'À'
  else if c = 'ù' then 'Ù' else if c = 'ç' then 'Ç' else c

/-- A cased (alphabetic) character, for `str.title` (ASCII model plus the
accented letters used by the scripts). -/
def isAlphaCh (c : Char) : Bool :=
  isUpperCh c || isLowerCh c || accentLower.contains c || accentUpper.contains c

/-- Model of Python `str.upper`: uppercase every character. -/
def pyUpper (s : PyStr) : PyStr := s.map upperCh

/-- Helper for `pyTitle`: the flag records whether the previous character
was cased. -/
def pyTitleAux (prevCased : Bool) : PyStr → PyStr
  | [] => []
  | c :: cs =>
    (if isAlphaCh c then (if prevCased then lowerCh c else upperCh c) else c)
      :: pyTitleAux (isAlphaCh c) cs

/-- Model of Python `str.title`: the first character of every run of cased
characters is uppercased, the remaining ones lowercased. -/
def pyTitle (s : PyStr) : PyStr := pyTitleAux false s

/-- Model of Python `str.strip()`: drop whitespace from both ends. -/
def pyStrip (s : PyStr) : PyStr :=
  ((s.dropWhile pyWs).reverse.dropWhile pyWs).reverse

/-- Does `p` occur as a prefix of `s`?  (`str.startswith`, and the building
block of substring search and `str.replace`.) -/
def pyStartsWith : PyStr → PyStr → Bool
  | [], _ => true
  | _ :: _, [] => false
  | p :: ps, c :: cs => p == c && pyStartsWith ps cs

/-- Model of the Python substring test `sub in s`. -/
def pyIn (sub : PyStr) : PyStr → Bool
  | [] => sub.isEmpty
  | c :: cs => pyStartsWith sub (c :: cs) || pyIn sub cs

/-- Model of Python `s.replace(old, new)` for an empty `old`: the
replacement is inserted before every character and at the end. -/
def emptyOldRepl (new : PyStr) : PyStr → PyStr
  | [] => new
  | c :: cs => new ++ c :: emptyOldRepl new cs

/-- Fuel-driven worker for `pyReplace` (`old` is non-empty when this is
called; each step consumes at least one input character, so fuel equal to
the input length suffices, and the fuel makes the recursion structural). -/
def pyReplaceAux (old new : PyStr) : Nat → PyStr → PyStr
  | 0, l => l
  | _ + 1, [] => []
  | fuel + 1, c :: cs =>
    if pyStartsWith old (c :: cs) then
      new ++ pyReplaceAux old new fuel (cs.drop (old.length - 1))
    else
      c :: pyReplaceAux old new fuel cs

/-- Model of Python `s.replace(old, new)`: replace every non-overlapping
occurrence of `old`, scanning left to right. -/
def pyReplace (s old new : PyStr) : PyStr :=
  match old with
  | [] => emptyOldRepl new s
  | _ :: _ => pyReplaceAux old new s.length s

/-- The numeric value of a string of decimal digits. -/
def natOfDigits (s : PyStr) : Nat := s.foldl (fun n c => 10 * n + (chCode c - 48)) 0

/-- Parse a non-empty all-digit string, else fail. -/
def digitsToNat? (s : PyStr) : Option Nat :=
  if !s.isEmpty && s.all isDigitCh then some (natOfDigits s) else none

/-- Model of Python `int(s)` on a string: strip whitespace, allow one
leading sign, then require a non-empty digit string; `none` models the
`ValueError` raised otherwise (ASCII model; digit-group underscores are not
modelled, which is exact for the two-character slices this code applies
`int` to). -/
def pyInt (s : PyStr) : Option Int :=
  match pyStrip s with
  | [] => none
  | c :: cs =>
    if c = '+' then (digitsToNat? cs).map (fun n => (n : Int))
    else if c = '-' then (digitsToNat? cs).map (fun n => -(n : Int))
    else (digitsToNat? (c :: cs)).map (fun n => (n : Int))

/-- Model of Python `str(i)` for an integer. -/
def pyStrOfInt (i : Int) : PyStr :=
  if i < 0 then '-' :: Nat.toDigits 10 (-i).toNat else Nat.toDigits 10 i.toNat

/-! ## Python dictionaries as ordered association lists -/

/-- An ordered label-to-value mapping, the FieldSet of the specification:
the model of the Python dicts built by the two scripts.  Insertion order is
the list order; a write to an existing label overwrites in place. -/
abbrev FieldSet := List (PyStr × PyStr)

/-- Lookup in a FieldSet (Python `d[k]` / `k in d`). -/
def lookupF (k : PyStr) : FieldSet → Option PyStr
  | [] => none
  | (k1, v) :: d => if k1 = k then some v else lookupF k d

/-- Model of the Python dict assignment `d[k] = v`: overwrite in place if
the key is present, otherwise append at the end. -/
def dictInsert (d : FieldSet) (k v : PyStr) : FieldSet :=
  match d with
  | [] => [(k, v)]
  | (k1, v1) :: rest => if k1 = k then (k1, v) :: rest else (k1, v1) :: dictInsert rest k v

/-- Model of Python `d.update(e)`: assign every entry of `e` into `d`, in
the insertion order of `e`. -/
def dictUpdate (d e : FieldSet) : FieldSet :=
  e.foldl (fun acc kv => dictInsert acc kv.1 kv.2) d

/-- Conditional insertion: the translation of the Python idiom
`if match: d[k] = value`. -/
def insOpt (d : FieldSet) (k : PyStr) (o : Option PyStr) : FieldSet :=
  match o with
  | some v => dictInsert d k v
  | none => d

/-- The labels of a FieldSet, in order. -/
def keysF (d : FieldSet) : List PyStr := d.map Prod.fst

/-! ## Regular-expression matchers

Each regex of the scripts is hand-compiled into a matcher
`PyStr → Option PyStr` returning the text of capture group 1 when the
pattern matches at the start of the input; `reSearch` then implements the
leftmost-match scan of `re.search`.  Greedy repetition and optional pieces
backtrack exactly as the `re` engine does.  Every pattern of the scripts
has its single capture group at the end of the pattern, so the group can be
matched last with no further continuation. -/

/-- A matcher anchored at the current position. -/
abbrev Matcher := PyStr → Option PyStr

/-- Match a literal, case-insensitively (re.IGNORECASE), then continue. -/
def litCI : PyStr → Matcher → Matcher
  | [], k, l => k l
  | _ :: _, _, [] => none
  | p :: ps, k, c :: cs => if lowerCh c = lowerCh p then litCI ps k cs else none

/-- Match a literal exactly (case-sensitively), then continue. -/
def litEx : PyStr → Matcher → Matcher
  | [], k, l => k l
  | _ :: _, _, [] => none
  | p :: ps, k, c :: cs => if c = p then litEx ps k cs else none

/-- Greedy character-class star with backtracking: consume as many
class characters as possible, giving characters back one at a time if the
continuation fails. -/
def starCl (cls : Char → Bool) (k : Matcher) : Matcher
  | [] => k []
  | c :: cs =>
    if cls c then
      match starCl cls k cs with
      | some r => some r
      | none => k (c :: cs)
    else k (c :: cs)

/-- Greedy optional single character of a class, with backtracking. -/
def optCl (cls : Char → Bool) (k : Matcher) : Matcher
  | [] => k []
  | c :: cs =>
    if cls c then
      match k cs with
      | some r => some r
      | none => k (c :: cs)
    else k (c :: cs)

/-- Final capture group `(cls+)` at the end of a pattern: the greedy
maximal run, which must be non-empty. -/
def capPlus (cls : Char → Bool) : Matcher := fun l =>
  let run := l.takeWhile cls
  if run.isEmpty then none else some run

/-- Scan of `re.search`: try the anchored matcher at every successive
start position and return the first (leftmost) success. -/
def reSearch (m : Matcher) : PyStr → Option PyStr
  | [] => m []
  | c :: cs =>
    match m (c :: cs) with
    | some r => some r
    | none => reSearch m cs

/-! ## Shared data -/

/-- The apostrophe character. -/
def chApos : Char := Char.ofNat 39

/-- The MRZ filler character. -/
def chLt : Char := '<'

/-- The French placeholder string used for absent values. -/
def nonPrecise : PyStr := "Non précisé".toList

/-- Modelled from the spec: the reference country table (the pycountry
library, an ISO 3166-1 alpha-3 external collaborator of both scripts,
specified only at the interface level `lookup(alpha3_code) ->
Optional<CountryName>`); only the entries exercised by the specification
examples plus a few neighbouring ones are included. -/
def country_table : List (PyStr × PyStr) :=
  [("FRA".toList, "France".toList),
   ("IND".toList, "India".toList),
   ("DEU".toList, "Germany".toList),
   ("PRT".toList, "Portugal".toList),
   ("BEL".toList, "Belgium".toList)]

/-- The raw MRZ record returned by the external MRZ decoder
(`read_mrz(...).to_dict()`): the fields the scripts read with
`raw.get(key, "")`, a missing key being modelled as the empty string. -/
structure RawMrz where
  surname : PyStr
  names : PyStr
  country : PyStr
  nationality : PyStr
  number : PyStr
  sex : PyStr
  date_of_birth : PyStr
  expiration_date : PyStr
  mrz_text : PyStr

namespace frenchcarte

/-- Translation of `get_country_fullname` (frenchcarte.py, lines 22-27):
look the uppercased code up in the country table; on success format
`"<name> (<CODE>)"`, on any failure (modelled by a missing table entry)
return the code unchanged. -/
def get_country_fullname (code : PyStr) : PyStr :=
  match lookupF (pyUpper code) country_table with
  | some name => name ++ [' ', '('] ++ pyUpper code ++ [')']
  | none => code

/-- Translation of `re.fullmatch(r'(\d{2})[.\slash-](\d{2})[.\slash-](\d{4})', s)`
(frenchcarte.py, line 43): the three captured groups when the whole string
has the delimited-date shape. -/
def delim_match (s : PyStr) : Option (PyStr × PyStr × PyStr) :=
  match s with
  | [d1, d2, s1, m1, m2, s2, y1, y2, y3, y4] =>
    if isDigitCh d1 && isDigitCh d2 && (s1 == '.' || s1 == '/' || s1 == '-') &&
       isDigitCh m1 && isDigitCh m2 && (s2 == '.' || s2 == '/' || s2 == '-') &&
       isDigitCh y1 && isDigitCh y2 && isDigitCh y3 && isDigitCh y4
    then some ([d1, d2], [m1, m2], [y1, y2, y3, y4])
    else none
  | _ => none

/-- Translation of `convert_date` (frenchcarte.py, lines 33-46): strip the
input; a 6-digit string is read as MRZ YYMMDD with the fixed century rule;
a delimited DD.MM.YYYY / DD/MM/YYYY / DD-MM-YYYY date is re-emitted with
slashes; anything else falls through to the stripped string.  The `int`
call of the source is guarded by the 6-digit fullmatch, so it is total
here. -/
def convert_date (date_str : PyStr) : PyStr :=
  let date_str := pyStrip date_str
  if date_str.length == 6 && date_str.all isDigitCh then
    let yy := natOfDigits (date_str.take 2)
    let mm := (date_str.drop 2).take 2
    let dd := date_str.drop 4
    let year := if yy > 30 then 1900 + yy else 2000 + yy
    dd ++ ['/'] ++ mm ++ ['/'] ++ Nat.toDigits 10 year
  else
    match delim_match date_str with
    | some (d, m, y) => d ++ ['/'] ++ m ++ ['/'] ++ y
    | none => date_str

/-- The character class of the taille capture group `[\d.,]`. -/
def tailleCls (c : Char) : Bool := isDigitCh c || c == '.' || c == ','

/-- The character class `[\s:]`. -/
def wsColonCl (c : Char) : Bool := pyWs c || c == ':'

/-- The literal `Taille`. -/
def litTaille : PyStr := ['T', 'a', 'i', 'l', 'l', 'e']

/-- The literal `T.`. -/
def litTDot : PyStr := ['T', '.']

/-- The literal `taille`. -/
def litTailleLower : PyStr := ['t', 'a', 'i', 'l', 'l', 'e']

/-- The common tail `[\s:]*([\d.,]+)` of the three taille alternatives. -/
def tailleTail : Matcher := starCl wsColonCl (capPlus tailleCls)

/-- Anchored matcher for `(?:Taille|T\.|taille)[\s:]*([\d.,]+)`
(frenchcarte.py, line 52; this pattern is case-sensitive), with the
alternatives tried in the written order. -/
def taille_matcher : Matcher := fun l =>
  match litEx litTaille tailleTail l with
  | some r => some r
  | none =>
    match litEx litTDot tailleTail l with
    | some r => some r
    | none => litEx litTailleLower tailleTail l

/-- Translation of `extract_taille` (frenchcarte.py, lines 51-55): search
for the height pattern; on a match, return group 1 with commas replaced by
dots and stripped; otherwise the placeholder. -/
def extract_taille (ocr_text : PyStr) : PyStr :=
  match reSearch taille_matcher ocr_text with
  | some g => pyStrip (pyReplace g [','] ['.'])
  | none => nonPrecise

/-- The class `[A-Z]` under re.IGNORECASE: any ASCII letter. -/
def letterCI (c : Char) : Bool := isUpperCh c || isLowerCh c

/-- The class `[A-Za-zéèàùçÉÈÀÙÇ]` (already closed under the case swaps of
re.IGNORECASE for the modelled alphabet). -/
def natLetterCl (c : Char) : Bool := isAlphaCh c

/-- Anchored matcher for
`CARTE NATIONALE D'?IDENTITE(?:\s*Ne\s*[:]?[\s]*)(\d+)` with re.IGNORECASE
(frenchcarte.py, line 63). -/
def id_matcher : Matcher :=
  litCI "CARTE NATIONALE D".toList
    (optCl (fun c => c == chApos)
      (litCI "IDENTITE".toList
        (starCl pyWs
          (litCI ['N', 'e']
            (starCl pyWs
              (optCl (fun c => c == ':')
                (starCl pyWs (capPlus isDigitCh))))))))

/-- Anchored matcher for `Nationalité\s*[:]?[\s]*([A-Za-zéèàùçÉÈÀÙÇ]+)`
with re.IGNORECASE (frenchcarte.py, line 67). -/
def nat_matcher : Matcher :=
  litCI "Nationalité".toList
    (starCl pyWs
      (optCl (fun c => c == ':')
        (starCl pyWs (capPlus natLetterCl))))

/-- The part `Nom\s*[:]?[\s]*([A-Z]+)` of the surname pattern. -/
def nomTail : Matcher :=
  litCI ['N', 'o', 'm']
    (starCl pyWs
      (optCl (fun c => c == ':')
        (starCl pyWs (capPlus letterCI))))

/-- Anchored matcher for `(?:BC\s*)?Nom\s*[:]?[\s]*([A-Z]+)` with
re.IGNORECASE (frenchcarte.py, line 71): the optional `BC` branch is
greedy, so it is tried first. -/
def nom_matcher : Matcher := fun l =>
  match litCI ['B', 'C'] (starCl pyWs nomTail) l with
  | some r => some r
  | none => nomTail l

/-- Anchored matcher for `Prénom[\(\{]?[sS]?[}\)]?\s*[:]?[\s]*([A-Z]+)`
with re.IGNORECASE (frenchcarte.py, line 75). -/
def prenom_matcher : Matcher :=
  litCI "Prénom".toList
    (optCl (fun c => c == '(' || c == '{')
      (optCl (fun c => c == 's' || c == 'S')
        (optCl (fun c => c == '}' || c == ')')
          (starCl pyWs
            (optCl (fun c => c == ':')
              (starCl pyWs (capPlus letterCI)))))))

/-- Single-character capture group over a class (for `([FM])`). -/
def capOneOf (cls : Char → Bool) : Matcher := fun l =>
  match l with
  | c :: _ => if cls c then some [c] else none
  | [] => none

/-- Anchored matcher for `Sexe\s*[:]?[\s]*([FM])` with re.IGNORECASE
(frenchcarte.py, line 79). -/
def sexe_matcher : Matcher :=
  litCI "Sexe".toList
    (starCl pyWs
      (optCl (fun c => c == ':')
        (starCl pyWs (capOneOf (fun c => c == 'F' || c == 'M' || c == 'f' || c == 'm')))))

/-- Fixed-shape capture `([\d]{2}[.\slash-][\d]{2}[.\slash-][\d]{4})` at the end of
the date-of-birth pattern. -/
def capDate : Matcher := fun l =>
  match l with
  | d1 :: d2 :: s1 :: m1 :: m2 :: s2 :: y1 :: y2 :: y3 :: y4 :: _ =>
    if isDigitCh d1 && isDigitCh d2 && (s1 == '.' || s1 == '/' || s1 == '-') &&
       isDigitCh m1 && isDigitCh m2 && (s2 == '.' || s2 == '/' || s2 == '-') &&
       isDigitCh y1 && isDigitCh y2 && isDigitCh y3 && isDigitCh y4
    then some [d1, d2, s1, m1, m2, s2, y1, y2, y3, y4]
    else none
  | _ => none

/-- The class `[éeÉÈ]` under re.IGNORECASE. -/
def eAccCl (c : Char) : Bool := lowerCh c == 'é' || lowerCh c == 'e' || lowerCh c == 'è'

/-- The optional alternation `(?:le|ie)?` (greedy: `le` first, then `ie`,
then nothing), followed by the continuation. -/
def optLeIe (k : Matcher) : Matcher := fun l =>
  match litCI ['l', 'e'] k l with
  | some r => some r
  | none =>
    match litCI ['i', 'e'] k l with
    | some r => some r
    | none => k l

/-- Anchored matcher for
`N[éeÉÈ]*[\(\{]?e[\)\}]?\s*(?:le|ie)?\s*[:]?\s*([\d]{2}[.\slash-][\d]{2}[.\slash-][\d]{4})`
with re.IGNORECASE (frenchcarte.py, line 83). -/
def dob_matcher : Matcher :=
  litCI ['N']
    (starCl eAccCl
      (optCl (fun c => c == '(' || c == '{')
        (litCI ['e']
          (optCl (fun c => c == ')' || c == '}')
            (starCl pyWs
              (optLeIe
                (starCl pyWs
                  (optCl (fun c => c == ':')
                    (starCl pyWs capDate)))))))))

/-- FieldSet label: Carte nationale d + apostrophe + identité. -/
def keyCNI : PyStr := "Carte nationale d".toList ++ [chApos] ++ "identité".toList

/-- FieldSet label Nationalité. -/
def keyNat : PyStr := "Nationalité".toList

/-- FieldSet label Nom de famille. -/
def keyNom : PyStr := "Nom de famille".toList

/-- FieldSet label Prénom. -/
def keyPrenom : PyStr := "Prénom".toList

/-- FieldSet label Sexe. -/
def keySexe : PyStr := "Sexe".toList

/-- FieldSet label Né(e) le. -/
def keyNee : PyStr := "Né(e) le".toList

/-- FieldSet label Taille. -/
def keyTaille : PyStr := litTaille

/-- FieldSet label MRZ brut. -/
def keyMrzBrut : PyStr := "MRZ brut".toList

/-- FieldSet label Pays de délivrance. -/
def keyPays : PyStr := "Pays de délivrance".toList

/-- FieldSet label Date d + apostrophe + expiration. -/
def keyExpiration : PyStr := "Date d".toList ++ [chApos] ++ "expiration".toList

/-- Translation of `extract_info_from_ocr_text` (frenchcarte.py, lines
60-88): each labelled regex is searched independently; a miss simply omits
the field, except the height, which is always written last. -/
def extract_info_from_ocr_text (ocr_text : PyStr) : FieldSet :=
  let info : FieldSet := []
  let info := insOpt info keyCNI (reSearch id_matcher ocr_text)
  let info := insOpt info keyNat ((reSearch nat_matcher ocr_text).map pyTitle)
  let info := insOpt info keyNom ((reSearch nom_matcher ocr_text).map pyTitle)
  let info := insOpt info keyPrenom ((reSearch prenom_matcher ocr_text).map pyTitle)
  let info := insOpt info keySexe ((reSearch sexe_matcher ocr_text).map pyUpper)
  let info := insOpt info keyNee ((reSearch dob_matcher ocr_text).map convert_date)
  dictInsert info keyTaille (extract_taille ocr_text)

/-- Translation of `extract_mrz_info` (frenchcarte.py, lines 93-127),
applied to the record returned by the external MRZ decoder (`none` when
`read_mrz` found no MRZ). -/
def extract_mrz_info (mrz : Option RawMrz) : FieldSet :=
  match mrz with
  | some raw =>
    let surname := pyTitle (pyStrip (pyReplace raw.surname [chLt] [' ']))
    let names := pyTitle (pyStrip (pyReplace raw.names [chLt] [' ']))
    let prenom :=
      if names ≠ [] then
        if surname ≠ [] ∧ pyIn surname names = true then
          let prenom := pyStrip (pyReplace names surname [])
          if prenom = [] then names else prenom
        else names
      else nonPrecise
    let dob_raw := pyStrip (pyReplace raw.date_of_birth [chLt] [])
    let exp_raw := pyStrip (pyReplace raw.expiration_date [chLt] [])
    let sexe :=
      let s := pyStrip (pyReplace raw.sex [chLt] [])
      if s = [] then nonPrecise else s
    [(keyMrzBrut, raw.mrz_text),
     (keyPays, get_country_fullname raw.country),
     (keyCNI, pyReplace raw.number [chLt] []),
     (keyNom, surname),
     (keyPrenom, prenom),
     (keyNat, get_country_fullname raw.nationality),
     (keyNee, convert_date dob_raw),
     (keyExpiration, convert_date exp_raw),
     (keySexe, sexe)]
  | none => []

/-- Translation of the merge performed by the app logic (frenchcarte.py,
lines 148-152): start from an empty dict, update with the MRZ fields when
they are non-empty, update with the OCR fields, then assign the separately
computed height. -/
def final_info (mrz_info ocr_info : FieldSet) (taille : PyStr) : FieldSet :=
  let final : FieldSet := []
  let final := if mrz_info ≠ [] then dictUpdate final mrz_info else final
  let final := dictUpdate final ocr_info
  dictInsert final keyTaille taille

end frenchcarte

namespace indian_passport

/-- Translation of `get_country_fullname` (indian_passport.py, lines
21-26): identical to the ID-card variant (the bare `except` also catches
every lookup failure). -/
def get_country_fullname (code : PyStr) : PyStr :=
  match lookupF (pyUpper code) country_table with
  | some name => name ++ [' ', '('] ++ pyUpper code ++ [')']
  | none => code

/-- Translation of `convert_date` (indian_passport.py, lines 77-84): any
input whose length is not 6 is returned unchanged; otherwise
`int(ymd[:2])` is attempted, `none` modelling the ValueError it raises on
a slice that is not an integer literal. -/
def convert_date (ymd : PyStr) : Option PyStr :=
  if ymd.length == 6 then
    match pyInt (ymd.take 2) with
    | none => none
    | some yy =>
      let mm := (ymd.drop 2).take 2
      let dd := ymd.drop 4
      let year := if yy > 30 then 1900 + yy else 2000 + yy
      some (dd ++ ['/'] ++ mm ++ ['/'] ++ pyStrOfInt year)
  else some ymd

/-- FieldSet label Raw MRZ. -/
def keyRawMrz : PyStr := "Raw MRZ".toList

/-- FieldSet label Country Code (Issued By). -/
def keyCountry : PyStr := "Country Code (Issued By)".toList

/-- FieldSet label Passport Number. -/
def keyNumber : PyStr := "Passport Number".toList

/-- FieldSet label Last Name. -/
def keyLast : PyStr := "Last Name".toList

/-- FieldSet label First Name. -/
def keyFirst : PyStr := "First Name".toList

/-- FieldSet label Nationality. -/
def keyNationality : PyStr := "Nationality".toList

/-- FieldSet label Date of Birth. -/
def keyDob : PyStr := "Date of Birth".toList

/-- FieldSet label Expiration Date. -/
def keyExp : PyStr := "Expiration Date".toList

/-- FieldSet label Sex. -/
def keySex : PyStr := "Sex".toList

/-- Translation of `extract_mrz_info` (indian_passport.py, lines 49-72):
the first name is the surname-free remainder with no emptiness fallback;
the two `convert_date` calls are applied to the raw date fields (with no
filler stripping), so a failing call makes the whole extraction raise,
modelled by `none`. -/
def extract_mrz_info (mrz : Option RawMrz) : Option FieldSet :=
  match mrz with
  | some raw =>
    let surname := pyTitle (pyStrip (pyReplace raw.surname [chLt] [' ']))
    let names := pyTitle (pyStrip (pyReplace raw.names [chLt] [' ']))
    let first_name := pyStrip (pyReplace names surname [])
    match convert_date raw.date_of_birth, convert_date raw.expiration_date with
    | some dob, some exp =>
      some [(keyRawMrz, raw.mrz_text),
            (keyCountry, get_country_fullname raw.country),
            (keyNumber, pyReplace raw.number [chLt] []),
            (keyLast, surname),
            (keyFirst, first_name),
            (keyNationality, get_country_fullname raw.nationality),
            (keyDob, dob),
            (keyExp, exp),
            (keySex, raw.sex)]
    | _, _ => none
  | none => some []

end indian_passport
/-- The first-name derivation as the specification words it (claim C5),
compared against the derivation performed inside the ID-card
`extract_mrz_info`: placeholder for empty names; surname occurrences
removed and the remainder trimmed, falling back to the unmodified names
when the remainder is empty; names unchanged when the surname is empty or
not contained in names. -/
def prenom_spec (surname names : PyStr) : PyStr :=
  if names = [] then nonPrecise
  else if surname ≠ [] ∧ pyIn surname names = true then
    (if pyStrip (pyReplace names surname []) = [] then names
     else pyStrip (pyReplace names surname []))
  else names

/-- A concrete raw MRZ record whose names field coincides with its
surname, exhibiting the empty passport first name.  Fields in order:
surname, names, country, nationality, number, sex, date of birth,
expiration date, mrz text. -/
def rawSameName : RawMrz :=
  ⟨"AB".toList, "AB".toList, "FRA".toList, "FRA".toList, "X1".toList,
   "M".toList, "900101".toList, "300101".toList, "XX".toList⟩

/-! ## FieldSet (Python dict) lemmas -/

theorem lookupF_nil (q : PyStr) : lookupF q [] = none := rfl

theorem lookupF_cons (q k v : PyStr) (d : FieldSet) :
    lookupF q ((k, v) :: d) = if k = q then some v else lookupF q d := rfl

theorem keysF_nil : keysF [] = [] := rfl

theorem keysF_cons (k v : PyStr) (d : FieldSet) : keysF ((k, v) :: d) = k :: keysF d := rfl

theorem dictInsert_nil (k v : PyStr) : dictInsert [] k v = [(k, v)] := rfl

theorem dictInsert_cons (k1 v1 k v : PyStr) (d : FieldSet) :
    dictInsert ((k1, v1) :: d) k v =
      if k1 = k then (k1, v) :: d else (k1, v1) :: dictInsert d k v := rfl

theorem lookupF_dictInsert (d : FieldSet) (q k v : PyStr) :
    lookupF q (dictInsert d k v) = if k = q then some v else lookupF q d := by
  induction d with
  | nil => rw [dictInsert_nil, lookupF_cons, lookupF_nil]
  | cons kv d ih =>
    obtain ⟨k1, v1⟩ := kv
    rw [dictInsert_cons]
    by_cases h1 : k1 = k
    · subst h1
      rw [if_pos rfl, lookupF_cons, lookupF_cons]
      by_cases h2 : k1 = q
      · simp [h2]
      · simp [h2]
    · rw [if_neg h1, lookupF_cons, lookupF_cons]
      by_cases h2 : k1 = q
      · subst h2
        rw [if_pos rfl, if_pos rfl, if_neg (fun h => h1 h.symm)]
      · rw [if_neg h2, if_neg h2, ih]

theorem lookupF_dictInsert_self (d : FieldSet) (k v : PyStr) :
    lookupF k (dictInsert d k v) = some v := by
  rw [lookupF_dictInsert, if_pos rfl]

theorem keysF_dictInsert (d : FieldSet) (k v : PyStr) :
    keysF (dictInsert d k v) = if k ∈ keysF d then keysF d else keysF d ++ [k] := by
  induction d with
  | nil => simp [dictInsert_nil, keysF_cons, keysF_nil]
  | cons kv d ih =>
    obtain ⟨k1, v1⟩ := kv
    rw [dictInsert_cons]
    by_cases h1 : k1 = k
    · subst h1
      rw [if_pos rfl, keysF_cons, keysF_cons]
      simp
    · rw [if_neg h1, keysF_cons, keysF_cons, ih]
      have hne : ¬k = k1 := fun h => h1 h.symm
      by_cases h2 : k ∈ keysF d
      · rw [if_pos h2, if_pos (List.mem_cons_of_mem _ h2)]
      · rw [if_neg h2, if_neg (by simp [List.mem_cons, hne, h2]), List.cons_append]

theorem nodup_dictInsert {d : FieldSet} (k v : PyStr) (h : (keysF d).Nodup) :
    (keysF (dictInsert d k v)).Nodup := by
  rw [keysF_dictInsert]
  by_cases hm : k ∈ keysF d
  · simpa [hm] using h
  · simp only [hm, if_false]
    simpa [List.nodup_append] using ⟨h, hm⟩

theorem nodup_insOpt {d : FieldSet} (k : PyStr) (o : Option PyStr)
    (h : (keysF d).Nodup) : (keysF (insOpt d k o)).Nodup := by
  cases o with
  | none => exact h
  | some v => exact nodup_dictInsert k v h

theorem lookupF_eq_none_iff (d : FieldSet) (q : PyStr) :
    lookupF q d = none ↔ q ∉ keysF d := by
  induction d with
  | nil => simp [lookupF_nil, keysF_nil]
  | cons kv d ih =>
    obtain ⟨k1, v1⟩ := kv
    rw [lookupF_cons, keysF_cons]
    by_cases h1 : k1 = q
    · subst h1; simp
    · rw [if_neg h1]
      simp only [List.mem_cons, not_or, ih]
      constructor
      · intro h; exact ⟨fun hh => h1 hh.symm, h⟩
      · intro h; exact h.2

theorem lookupF_dictUpdate (d e : FieldSet) (q : PyStr) (he : (keysF e).Nodup) :
    lookupF q (dictUpdate d e) =
      match lookupF q e with
      | some v => some v
      | none => lookupF q d := by
  induction e generalizing d with
  | nil => simp [dictUpdate, lookupF_nil]
  | cons kv e ih =>
    obtain ⟨k1, v1⟩ := kv
    rw [keysF_cons, List.nodup_cons] at he
    show lookupF q (dictUpdate (dictInsert d k1 v1) e) = _
    rw [ih (dictInsert d k1 v1) he.2, lookupF_cons]
    by_cases h1 : k1 = q
    · subst h1
      have hnone : lookupF k1 e = none := (lookupF_eq_none_iff e k1).mpr he.1
      rw [hnone, if_pos rfl, lookupF_dictInsert, if_pos rfl]
    · rw [if_neg h1]
      cases h : lookupF q e with
      | some v => rfl
      | none => rw [lookupF_dictInsert, if_neg h1]

theorem dictInsert_append_of_not_mem {d : FieldSet} {k : PyStr} (v : PyStr)
    (h : k ∉ keysF d) : dictInsert d k v = d ++ [(k, v)] := by
  induction d with
  | nil => rfl
  | cons kv d ih =>
    obtain ⟨k1, v1⟩ := kv
    rw [keysF_cons, List.mem_cons, not_or] at h
    rw [dictInsert_cons, if_neg (fun hh : k1 = k => h.1 hh.symm), List.cons_append]
    rw [ih h.2]

theorem dictUpdate_append_of_disjoint {e : FieldSet} (he : (keysF e).Nodup) :
    ∀ d : FieldSet, (∀ k ∈ keysF e, k ∉ keysF d) → dictUpdate d e = d ++ e := by
  induction e with
  | nil => intro d _; simp [dictUpdate]
  | cons kv e ih =>
    intro d hd
    obtain ⟨k1, v1⟩ := kv
    rw [keysF_cons, List.nodup_cons] at he
    have hk1d : k1 ∉ keysF d := hd k1 (by rw [keysF_cons]; exact List.mem_cons_self _ _)
    show dictUpdate (dictInsert d k1 v1) e = d ++ (k1, v1) :: e
    rw [ih he.2 (dictInsert d k1 v1) ?_, dictInsert_append_of_not_mem v1 hk1d]
    · simp
    · intro k hk
      rw [keysF_dictInsert, if_neg hk1d]
      simp only [List.mem_append, List.mem_singleton, not_or]
      refine ⟨hd k (by rw [keysF_cons]; exact List.mem_cons_of_mem _ hk), ?_⟩
      intro hkk
      exact he.1 (hkk ▸ hk)

theorem dictUpdate_nil_of_nodup {e : FieldSet} (he : (keysF e).Nodup) :
    dictUpdate [] e = e := by
  rw [dictUpdate_append_of_disjoint he [] (by simp [keysF_nil]), List.nil_append]

theorem dictInsert_eq_self {d : FieldSet} {k v : PyStr}
    (h : lookupF k d = some v) : dictInsert d k v = d := by
  induction d with
  | nil => rw [lookupF_nil] at h; exact absurd h (by simp)
  | cons kv d ih =>
    obtain ⟨k1, v1⟩ := kv
    rw [lookupF_cons] at h
    by_cases h1 : k1 = k
    · rw [if_pos h1] at h
      rw [dictInsert_cons, if_pos h1, Option.some.injEq] at *
      rw [h]
    · rw [if_neg h1] at h
      rw [dictInsert_cons, if_neg h1, ih h]

/-! ## Character-class and string lemmas -/

theorem digit_not_ws {c : Char} (h : isDigitCh c = true) : pyWs c = false := by
  simp [isDigitCh, chCode] at h
  simp [pyWs, chCode]
  omega

theorem digit_ne_colon {c : Char} (h : isDigitCh c = true) : c ≠ ':' := by
  intro hh
  rw [hh] at h
  exact absurd h (by decide)

theorem tailleCls_not_ws {c : Char} (h : frenchcarte.tailleCls c = true) : pyWs c = false := by
  rcases Bool.or_eq_true _ _ |>.mp h with h1 | h2
  · rcases Bool.or_eq_true _ _ |>.mp h1 with h3 | h4
    · exact digit_not_ws h3
    · rw [show c = '.' from by simpa using h4]; decide
  · rw [show c = ',' from by simpa using h2]; decide

theorem tailleCls_not_wsColon {c : Char} (h : frenchcarte.tailleCls c = true) :
    frenchcarte.wsColonCl c = false := by
  rcases Bool.or_eq_true _ _ |>.mp h with h1 | h2
  · rcases Bool.or_eq_true _ _ |>.mp h1 with h3 | h4
    · simp [frenchcarte.wsColonCl, digit_not_ws h3, digit_ne_colon h3]
    · rw [show c = '.' from by simpa using h4]; decide
  · rw [show c = ',' from by simpa using h2]; decide

theorem dropWhile_eq_self_of {p : Char → Bool} {l : PyStr}
    (h : ∀ c ∈ l, p c = false) : l.dropWhile p = l := by
  cases l with
  | nil => rfl
  | cons c cs => simp [List.dropWhile, h c (by simp)]

theorem pyStrip_eq_self_of {l : PyStr} (h : ∀ c ∈ l, pyWs c = false) :
    pyStrip l = l := by
  unfold pyStrip
  rw [dropWhile_eq_self_of h, dropWhile_eq_self_of (by intro c hc; exact h c (by simpa using hc)),
    List.reverse_reverse]

theorem takeWhile_append_of {p : Char → Bool} {run rest : PyStr}
    (hrun : ∀ c ∈ run, p c = true)
    (hrest : rest = [] ∨ ∃ c cs, rest = c :: cs ∧ p c = false) :
    (run ++ rest).takeWhile p = run := by
  induction run with
  | nil =>
    rcases hrest with h | ⟨c, cs, rfl, hc⟩
    · simp [h]
    · simp [List.takeWhile, hc]
  | cons a run ih =>
    rw [List.cons_append]
    simp only [List.takeWhile, hrun a (by simp)]
    rw [ih (fun c hc => hrun c (by simp [hc]))]

theorem pyReplace_single (a b : Char) (l : PyStr) :
    pyReplace l [a] [b] = l.map (fun c => if c = a then b else c) := by
  show pyReplaceAux [a] [b] l.length l = _
  suffices h : ∀ (fuel : Nat) (l : PyStr), l.length ≤ fuel →
      pyReplaceAux [a] [b] fuel l = l.map (fun c => if c = a then b else c) from
    h l.length l le_rfl
  intro fuel
  induction fuel with
  | zero =>
    intro l hl
    rw [Nat.le_zero] at hl
    rw [List.length_eq_zero] at hl
    subst hl
    rfl
  | succ f ih =>
    intro l hl
    cases l with
    | nil => rfl
    | cons c cs =>
      have hlen : cs.length ≤ f := by simpa using hl
      by_cases hc : c = a
      · subst hc
        have hpre : pyStartsWith [c] (c :: cs) = true := by simp [pyStartsWith]
        simp only [pyReplaceAux, hpre, if_true, List.length_singleton, Nat.sub_self,
          List.drop_zero, List.map]
        rw [ih cs hlen]
        simp
      · have hpre : pyStartsWith [a] (c :: cs) = false := by
          simp only [pyStartsWith, Bool.and_eq_true, beq_iff_eq]
          simp
          exact fun h => hc h.symm
        simp only [pyReplaceAux, hpre, Bool.false_eq_true, if_false, List.map]
        rw [ih cs hlen, if_neg hc]

/-! ## Lemmas about the height (taille) search -/

theorem taille_matcher_cons_none {c : Char} (cs : PyStr) (hT : c ≠ 'T') (ht : c ≠ 't') :
    frenchcarte.taille_matcher (c :: cs) = none := by
  simp [frenchcarte.taille_matcher, frenchcarte.litTaille, frenchcarte.litTDot,
    frenchcarte.litTailleLower, litEx, hT, ht]

theorem reSearch_of_match {m : Matcher} {l : PyStr} {r : PyStr} (h : m l = some r) :
    reSearch m l = some r := by
  cases l with
  | nil => rw [reSearch, h]
  | cons c cs => rw [reSearch, h]

theorem reSearch_taille_skip {pre : PyStr} (l : PyStr)
    (hpre : ∀ c ∈ pre, c ≠ 'T' ∧ c ≠ 't') :
    reSearch frenchcarte.taille_matcher (pre ++ l) = reSearch frenchcarte.taille_matcher l := by
  induction pre with
  | nil => rw [List.nil_append]
  | cons c pre ih =>
    rw [List.cons_append, reSearch,
      taille_matcher_cons_none _ (hpre c (by simp)).1 (hpre c (by simp)).2]
    exact ih (fun a ha => hpre a (by simp [ha]))

theorem litEx_self_append (p : PyStr) (k : Matcher) (l : PyStr) :
    litEx p k (p ++ l) = k l := by
  induction p with
  | nil => rw [List.nil_append, litEx]
  | cons a p ih => rw [List.cons_append, litEx, if_pos rfl, ih]

theorem tailleTail_eval (sep run rest : PyStr)
    (hsep : ∀ c ∈ sep, frenchcarte.wsColonCl c = true)
    (hne : run ≠ [])
    (hrun : ∀ c ∈ run, frenchcarte.tailleCls c = true)
    (hrest : rest = [] ∨ ∃ c cs, rest = c :: cs ∧ frenchcarte.tailleCls c = false) :
    frenchcarte.tailleTail (sep ++ (run ++ rest)) = some run := by
  induction sep with
  | nil =>
    rw [List.nil_append]
    obtain ⟨r, run', rfl⟩ : ∃ r run', run = r :: run' := by
      cases run with
      | nil => exact absurd rfl hne
      | cons r run' => exact ⟨r, run', rfl⟩
    show starCl frenchcarte.wsColonCl (capPlus frenchcarte.tailleCls) _ = _
    rw [List.cons_append, starCl, if_neg (by rw [tailleCls_not_wsColon (hrun r (by simp))]; simp)]
    rw [← List.cons_append, capPlus]
    rw [takeWhile_append_of hrun hrest]
    simp [hne]
  | cons c sep ih =>
    have hc : frenchcarte.wsColonCl c = true := hsep c (by simp)
    rw [List.cons_append]
    show starCl frenchcarte.wsColonCl (capPlus frenchcarte.tailleCls) _ = _
    rw [starCl, if_pos (by rw [hc])]
    have := ih (fun a ha => hsep a (by simp [ha]))
    rw [show starCl frenchcarte.wsColonCl (capPlus frenchcarte.tailleCls)
        (sep ++ (run ++ rest)) = some run from this]

theorem taille_matcher_at {x : PyStr} {r : PyStr} (h : frenchcarte.tailleTail x = some r) :
    frenchcarte.taille_matcher (frenchcarte.litTaille ++ x) = some r := by
  rw [frenchcarte.taille_matcher, litEx_self_append, h]

theorem extract_taille_found (pre sep run rest : PyStr)
    (hpre : ∀ c ∈ pre, c ≠ 'T' ∧ c ≠ 't')
    (hsep : ∀ c ∈ sep, frenchcarte.wsColonCl c = true)
    (hne : run ≠ [])
    (hrun : ∀ c ∈ run, frenchcarte.tailleCls c = true)
    (hrest : rest = [] ∨ ∃ c cs, rest = c :: cs ∧ frenchcarte.tailleCls c = false) :
    frenchcarte.extract_taille (pre ++ (frenchcarte.litTaille ++ (sep ++ (run ++ rest)))) =
      run.map (fun c => if c = ',' then '.' else c) := by
  rw [frenchcarte.extract_taille, reSearch_taille_skip _ hpre,
    reSearch_of_match (taille_matcher_at (tailleTail_eval sep run rest hsep hne hrun hrest))]
  show pyStrip (pyReplace run [','] ['.']) = _
  rw [pyReplace_single]
  apply pyStrip_eq_self_of
  intro c hc
  rw [List.mem_map] at hc
  obtain ⟨a, ha, rfl⟩ := hc
  by_cases hcomma : a = ','
  · rw [if_pos hcomma]; decide
  · rw [if_neg hcomma]; exact tailleCls_not_ws (hrun a ha)

theorem extract_taille_miss (t : PyStr) (h : ∀ c ∈ t, c ≠ 'T' ∧ c ≠ 't') :
    frenchcarte.extract_taille t = nonPrecise := by
  rw [frenchcarte.extract_taille]
  have : reSearch frenchcarte.taille_matcher t = none := by
    rw [show t = t ++ [] from (List.append_nil t).symm, reSearch_taille_skip [] h]
    rfl
  rw [this]

theorem lookup_taille_always (t : PyStr) :
    lookupF frenchcarte.keyTaille (frenchcarte.extract_info_from_ocr_text t) =
      some (frenchcarte.extract_taille t) := by
  unfold frenchcarte.extract_info_from_ocr_text
  exact lookupF_dictInsert_self _ _ _

theorem nodup_extract_info (t : PyStr) :
    (keysF (frenchcarte.extract_info_from_ocr_text t)).Nodup := by
  unfold frenchcarte.extract_info_from_ocr_text
  apply nodup_dictInsert
  apply nodup_insOpt
  apply nodup_insOpt
  apply nodup_insOpt
  apply nodup_insOpt
  apply nodup_insOpt
  apply nodup_insOpt
  simp [keysF_nil]

theorem nodup_extract_mrz (mrz : Option RawMrz) :
    (keysF (frenchcarte.extract_mrz_info mrz)).Nodup := by
  cases mrz with
  | none => simp [frenchcarte.extract_mrz_info, keysF_nil]
  | some raw =>
    simp only [frenchcarte.extract_mrz_info, keysF_cons, keysF_nil]
    decide

/-! ## Lemmas about digits, int parsing and stripping -/

theorem all_digits_strip {s : PyStr} (hd : s.all isDigitCh = true) : pyStrip s = s := by
  apply pyStrip_eq_self_of
  intro c hc
  exact digit_not_ws (by rw [List.all_eq_true] at hd; exact hd c hc)

theorem digit_ne_plus {c : Char} (h : isDigitCh c = true) : c ≠ '+' := by
  intro hh; rw [hh] at h; exact absurd h (by decide)

theorem digit_ne_minus {c : Char} (h : isDigitCh c = true) : c ≠ '-' := by
  intro hh; rw [hh] at h; exact absurd h (by decide)

theorem pyInt_digits {s : PyStr} (hne : s ≠ []) (hd : s.all isDigitCh = true) :
    pyInt s = some ((natOfDigits s : Int)) := by
  obtain ⟨c, cs, rfl⟩ : ∃ c cs, s = c :: cs := by
    cases s with
    | nil => exact absurd rfl hne
    | cons c cs => exact ⟨c, cs, rfl⟩
  have hc : isDigitCh c = true := by
    rw [List.all_eq_true] at hd; exact hd c (by simp)
  simp only [pyInt, all_digits_strip hd]
  rw [if_neg (digit_ne_plus hc), if_neg (digit_ne_minus hc), digitsToNat?,
    if_pos (by simp [hd])]
  simp

theorem pyStrOfInt_ofNat (n : Nat) : pyStrOfInt (n : Int) = Nat.toDigits 10 n := by
  rw [pyStrOfInt, if_neg (by exact not_lt.mpr (Int.ofNat_nonneg n))]
  simp

theorem pyStrip_cons_ws {c : Char} (s : PyStr) (h : pyWs c = true) :
    pyStrip (c :: s) = pyStrip s := by
  simp [pyStrip, List.dropWhile, h]

theorem pyStrip_append_ws {c : Char} (s : PyStr) (h : pyWs c = true) :
    pyStrip (s ++ [c]) = pyStrip s := by
  induction s with
  | nil => simp [pyStrip, List.dropWhile, h]
  | cons a s ih =>
    by_cases ha : pyWs a = true
    · rw [List.cons_append, pyStrip_cons_ws _ ha, ih, pyStrip_cons_ws _ ha]
    · have ha' : pyWs a = false := by simpa using ha
      simp [pyStrip, List.dropWhile, ha', h, List.reverse_append]

/-! ## Claim theorems -/

/-- C1: for every input string of exactly 6 digits YYMMDD, both date
normalizer variants (the ID-card `convert_date` of frenchcarte.py and the
passport `convert_date` of indian_passport.py) return the string
DD/MM/year with year = 1900 + YY when YY > 30 and year = 2000 + YY when
YY ≤ 30; in particular the passport variant raises no exception there. -/
theorem C1_date_normalizer_six_digits (s : PyStr) (h6 : s.length = 6)
    (hd : s.all isDigitCh = true) :
    frenchcarte.convert_date s =
      s.drop 4 ++ ['/'] ++ (s.drop 2).take 2 ++ ['/'] ++
        Nat.toDigits 10
          (if natOfDigits (s.take 2) > 30 then 1900 + natOfDigits (s.take 2)
           else 2000 + natOfDigits (s.take 2)) ∧
    indian_passport.convert_date s =
      some (s.drop 4 ++ ['/'] ++ (s.drop 2).take 2 ++ ['/'] ++
        Nat.toDigits 10
          (if natOfDigits (s.take 2) > 30 then 1900 + natOfDigits (s.take 2)
           else 2000 + natOfDigits (s.take 2))) := by
  have hyear : pyStrOfInt
        (if ((natOfDigits (s.take 2) : Int) > 30)
         then 1900 + (natOfDigits (s.take 2) : Int)
         else 2000 + (natOfDigits (s.take 2) : Int)) =
      Nat.toDigits 10
        (if natOfDigits (s.take 2) > 30 then 1900 + natOfDigits (s.take 2)
         else 2000 + natOfDigits (s.take 2)) := by
    by_cases hyy : natOfDigits (s.take 2) > 30
    · rw [if_pos (by exact_mod_cast hyy), if_pos hyy,
        show (1900 : Int) + (natOfDigits (s.take 2) : Int) =
          ((1900 + natOfDigits (s.take 2) : Nat) : Int) from by push_cast; ring,
        pyStrOfInt_ofNat]
    · rw [if_neg (by exact_mod_cast hyy), if_neg hyy,
        show (2000 : Int) + (natOfDigits (s.take 2) : Int) =
          ((2000 + natOfDigits (s.take 2) : Nat) : Int) from by push_cast; ring,
        pyStrOfInt_ofNat]
  constructor
  · have hcond : (s.length == 6 && s.all isDigitCh) = true := by
      rw [h6]; simp [hd]
    simp only [frenchcarte.convert_date, all_digits_strip hd, hcond, if_true]
  · have hcond : (s.length == 6) = true := by simp [h6]
    have htne : s.take 2 ≠ [] := by
      intro h
      have := congrArg List.length h
      simp [List.length_take, h6] at this
    have htd : (s.take 2).all isDigitCh = true := by
      rw [List.all_eq_true] at hd ⊢
      intro c hc
      exact hd c (List.take_subset _ _ hc)
    simp only [indian_passport.convert_date, hcond, if_true, pyInt_digits htne htd]
    rw [hyear]

/-- Witness for C1: the two examples of the claim, one per century branch,
evaluated on both variants. -/
theorem C1_witness :
    frenchcarte.convert_date "850101".toList = "01/01/1985".toList ∧
    indian_passport.convert_date "050101".toList = some ("01/01/2005".toList) := by
  constructor
  · have h := (C1_date_normalizer_six_digits ("850101".toList) (by decide) (by decide)).1
    rw [h]; decide
  · have h := (C1_date_normalizer_six_digits ("050101".toList) (by decide) (by decide)).2
    rw [h]; decide

/-- C2 counterexample: the passport variant DOES raise an exception on the
6-character non-digit input "ab0101" (`int("ab")` raises ValueError,
modelled by `none`); moreover on "12ab56" it returns a reordered garbled
string rather than the input, and the ID-card variant returns the
stripped, not the original, string for a padded non-matching input. -/
theorem C2_counterexample :
    indian_passport.convert_date "ab0101".toList = none ∧
    indian_passport.convert_date "12ab56".toList = some ("56/ab/2012".toList) ∧
    frenchcarte.convert_date " abc ".toList = "abc".toList ∧
    frenchcarte.convert_date " abc ".toList ≠ " abc ".toList := by
  refine ⟨by decide, by decide, by decide, by decide⟩

/-- C2 (amended): on inputs matching neither pattern the ID-card variant
returns the stripped input (hence the original string whenever it carries
no surrounding whitespace) and never raises; the passport variant returns
any input whose length is not 6 unchanged and never raises there (but may
raise on 6-character inputs that are not all digits, per the
counterexample). -/
theorem C2_amended_safety :
    (∀ s : PyStr,
      ((pyStrip s).length == 6 && (pyStrip s).all isDigitCh) = false →
      frenchcarte.delim_match (pyStrip s) = none →
      frenchcarte.convert_date s = pyStrip s) ∧
    (∀ s : PyStr, s.length ≠ 6 → indian_passport.convert_date s = some s) := by
  constructor
  · intro s h1 h2
    simp [frenchcarte.convert_date, h1, h2]
  · intro s h
    have hc : (s.length == 6) = false := by simpa using h
    simp [indian_passport.convert_date, hc]

/-- Witness for C2 (amended): a non-matching whitespace-free input for the
ID-card variant and a length-4 input for the passport variant. -/
theorem C2_witness :
    frenchcarte.convert_date "unknown".toList = "unknown".toList ∧
    indian_passport.convert_date "abcd".toList = some ("abcd".toList) := by
  constructor
  · have h := C2_amended_safety.1 ("unknown".toList) (by decide) (by decide)
    rw [h]; decide
  · exact C2_amended_safety.2 ("abcd".toList) (by decide)

/-- C3: the country code expander (identical in both scripts) is total
over all string inputs: a code resolving in the reference table yields
`<name> (<CODE uppercased>)`, any other input is returned unchanged, and
no exception escapes (the model is a total function by construction, the
`except` of the source catching every lookup failure). -/
theorem C3_country_expander :
    (∀ code : PyStr,
      (∃ name, lookupF (pyUpper code) country_table = some name ∧
        frenchcarte.get_country_fullname code = name ++ [' ', '('] ++ pyUpper code ++ [')'] ∧
        indian_passport.get_country_fullname code = name ++ [' ', '('] ++ pyUpper code ++ [')']) ∨
      (lookupF (pyUpper code) country_table = none ∧
        frenchcarte.get_country_fullname code = code ∧
        indian_passport.get_country_fullname code = code)) ∧
    frenchcarte.get_country_fullname "FRA".toList = "France (FRA)".toList ∧
    indian_passport.get_country_fullname "FRA".toList = "France (FRA)".toList ∧
    frenchcarte.get_country_fullname "ZZZ".toList = "ZZZ".toList ∧
    indian_passport.get_country_fullname "ZZZ".toList = "ZZZ".toList ∧
    frenchcarte.get_country_fullname [] = [] ∧
    indian_passport.get_country_fullname [] = [] := by
  refine ⟨?_, by decide, by decide, by decide, by decide, by decide, by decide⟩
  intro code
  cases h : lookupF (pyUpper code) country_table with
  | some name =>
    left
    exact ⟨name, rfl, by simp [frenchcarte.get_country_fullname, h],
      by simp [indian_passport.get_country_fullname, h]⟩
  | none =>
    right
    exact ⟨rfl, by simp [frenchcarte.get_country_fullname, h],
      by simp [indian_passport.get_country_fullname, h]⟩

/-- C7: every input of the two-digit, two-digit, four-digit delimited
shape (separators dot, slash or dash, in any mixture) is normalized by the
ID-card date normalizer to DD/MM/YYYY with the same digit groups and
slash separators. -/
theorem C7_delimited_date (d1 d2 m1 m2 y1 y2 y3 y4 s1 s2 : Char)
    (hd1 : isDigitCh d1 = true) (hd2 : isDigitCh d2 = true)
    (hm1 : isDigitCh m1 = true) (hm2 : isDigitCh m2 = true)
    (hy1 : isDigitCh y1 = true) (hy2 : isDigitCh y2 = true)
    (hy3 : isDigitCh y3 = true) (hy4 : isDigitCh y4 = true)
    (hs1 : s1 = '.' ∨ s1 = '/' ∨ s1 = '-')
    (hs2 : s2 = '.' ∨ s2 = '/' ∨ s2 = '-') :
    frenchcarte.convert_date [d1, d2, s1, m1, m2, s2, y1, y2, y3, y4] =
      [d1, d2, '/', m1, m2, '/', y1, y2, y3, y4] := by
  have sepws : ∀ x : Char, x = '.' ∨ x = '/' ∨ x = '-' → pyWs x = false := by
    intro x hx
    rcases hx with h | h | h <;> rw [h] <;> decide
  have hsep1 : (s1 == '.' || s1 == '/' || s1 == '-') = true := by
    rcases hs1 with h | h | h <;> simp [h]
  have hsep2 : (s2 == '.' || s2 == '/' || s2 == '-') = true := by
    rcases hs2 with h | h | h <;> simp [h]
  have hstrip : pyStrip [d1, d2, s1, m1, m2, s2, y1, y2, y3, y4] =
      [d1, d2, s1, m1, m2, s2, y1, y2, y3, y4] := by
    apply pyStrip_eq_self_of
    intro c hc
    simp only [List.mem_cons, List.not_mem_nil, or_false] at hc
    rcases hc with rfl | rfl | rfl | rfl | rfl | rfl | rfl | rfl | rfl | rfl
    exacts [digit_not_ws hd1, digit_not_ws hd2, sepws _ hs1, digit_not_ws hm1,
      digit_not_ws hm2, sepws _ hs2, digit_not_ws hy1, digit_not_ws hy2,
      digit_not_ws hy3, digit_not_ws hy4]
  simp [frenchcarte.convert_date, hstrip, frenchcarte.delim_match,
    hd1, hd2, hm1, hm2, hy1, hy2, hy3, hy4, hsep1, hsep2]

/-- Witness for C7: the example of the claim, with dot separators. -/
theorem C7_witness :
    frenchcarte.convert_date "15.07.1990".toList = "15/07/1990".toList := by
  have h := C7_delimited_date '1' '5' '0' '7' '1' '9' '9' '0' '.' '.'
    (by decide) (by decide) (by decide) (by decide) (by decide) (by decide)
    (by decide) (by decide) (Or.inl rfl) (Or.inl rfl)
  exact h

/-- C8: the ID-card OCR text field extractor is deterministic: two runs on
the same OCR text produce identical FieldSets (same labels, same values,
same order); the model is a pure function of the text, with no other
state. -/
theorem C8_extractor_deterministic (t1 t2 : PyStr) (h : t1 = t2) :
    frenchcarte.extract_info_from_ocr_text t1 = frenchcarte.extract_info_from_ocr_text t2 := by
  rw [h]

/-- Witness for C8: two runs on the same concrete OCR text. -/
theorem C8_witness :
    frenchcarte.extract_info_from_ocr_text "Sexe: F".toList =
      frenchcarte.extract_info_from_ocr_text "Sexe: F".toList :=
  C8_extractor_deterministic _ _ rfl

/-- C9 (implicit): the ID-card date normalizer strips surrounding
whitespace before matching (a leading or trailing space never changes the
result, and the padded claim examples normalize), while the passport
variant performs no stripping (the padded 8-character input is returned
unchanged). -/
theorem C9_whitespace_stripping :
    (∀ s : PyStr, frenchcarte.convert_date (' ' :: s) = frenchcarte.convert_date s) ∧
    (∀ s : PyStr, frenchcarte.convert_date (s ++ [' ']) = frenchcarte.convert_date s) ∧
    frenchcarte.convert_date " 850101 ".toList = "01/01/1985".toList ∧
    frenchcarte.convert_date " 15.07.1990 ".toList = "15/07/1990".toList ∧
    indian_passport.convert_date " 850101 ".toList = some (" 850101 ".toList) := by
  refine ⟨?_, ?_, by decide, by decide, by decide⟩
  · intro s
    simp only [frenchcarte.convert_date, pyStrip_cons_ws s (by decide : pyWs ' ' = true)]
  · intro s
    simp only [frenchcarte.convert_date, pyStrip_append_ws s (by decide : pyWs ' ' = true)]

/-- C10 (implicit): no calendar-validity check in either variant: the
delimited input 99-99-9999 yields 99/99/9999 and the 6-digit input 999999
yields 99/99/1999 in both variants. -/
theorem C10_no_calendar_check :
    frenchcarte.convert_date "99-99-9999".toList = "99/99/9999".toList ∧
    frenchcarte.convert_date "999999".toList = "99/99/1999".toList ∧
    indian_passport.convert_date "999999".toList = some ("99/99/1999".toList) := by
  refine ⟨by decide, by decide, by decide⟩

/-- C4: the merged FieldSet of the ID-card app equals the MRZ-derived
FieldSet overlaid with every OCR-derived entry (the trailing height
assignment being value-identical to the Taille entry the OCR FieldSet
always carries): a label present in both sets takes the OCR value, a
label present only in the MRZ set keeps its MRZ value, and when the MRZ
decoder returned no record the final FieldSet equals the OCR FieldSet
unchanged. -/
theorem C4_field_merger (t : PyStr) (mrzOpt : Option RawMrz) :
    frenchcarte.final_info (frenchcarte.extract_mrz_info mrzOpt)
        (frenchcarte.extract_info_from_ocr_text t) (frenchcarte.extract_taille t) =
      dictUpdate (frenchcarte.extract_mrz_info mrzOpt)
        (frenchcarte.extract_info_from_ocr_text t) ∧
    (∀ k v : PyStr, lookupF k (frenchcarte.extract_info_from_ocr_text t) = some v →
      lookupF k (frenchcarte.final_info (frenchcarte.extract_mrz_info mrzOpt)
        (frenchcarte.extract_info_from_ocr_text t) (frenchcarte.extract_taille t)) = some v) ∧
    (∀ k : PyStr, lookupF k (frenchcarte.extract_info_from_ocr_text t) = none →
      lookupF k (frenchcarte.final_info (frenchcarte.extract_mrz_info mrzOpt)
        (frenchcarte.extract_info_from_ocr_text t) (frenchcarte.extract_taille t)) =
        lookupF k (frenchcarte.extract_mrz_info mrzOpt)) ∧
    (frenchcarte.extract_mrz_info mrzOpt = [] →
      frenchcarte.final_info (frenchcarte.extract_mrz_info mrzOpt)
        (frenchcarte.extract_info_from_ocr_text t) (frenchcarte.extract_taille t) =
        frenchcarte.extract_info_from_ocr_text t) := by
  have hmain : frenchcarte.final_info (frenchcarte.extract_mrz_info mrzOpt)
      (frenchcarte.extract_info_from_ocr_text t) (frenchcarte.extract_taille t) =
      dictUpdate (frenchcarte.extract_mrz_info mrzOpt)
        (frenchcarte.extract_info_from_ocr_text t) := by
    have hf1 : (if frenchcarte.extract_mrz_info mrzOpt ≠ [] then
        dictUpdate [] (frenchcarte.extract_mrz_info mrzOpt) else ([] : FieldSet)) =
        frenchcarte.extract_mrz_info mrzOpt := by
      by_cases hm : frenchcarte.extract_mrz_info mrzOpt = []
      · simp [hm]
      · rw [if_pos hm]
        exact dictUpdate_nil_of_nodup (nodup_extract_mrz mrzOpt)
    show dictInsert (dictUpdate (if frenchcarte.extract_mrz_info mrzOpt ≠ [] then
        dictUpdate [] (frenchcarte.extract_mrz_info mrzOpt) else [])
        (frenchcarte.extract_info_from_ocr_text t)) frenchcarte.keyTaille
        (frenchcarte.extract_taille t) = _
    rw [hf1]
    apply dictInsert_eq_self
    rw [lookupF_dictUpdate _ _ _ (nodup_extract_info t), lookup_taille_always t]
  refine ⟨hmain, ?_, ?_, ?_⟩
  · intro k v h
    rw [hmain, lookupF_dictUpdate _ _ _ (nodup_extract_info t), h]
  · intro k h
    rw [hmain, lookupF_dictUpdate _ _ _ (nodup_extract_info t), h]
  · intro hm
    rw [hmain, hm]
    exact dictUpdate_nil_of_nodup (nodup_extract_info t)

/-- Witness for C4: the MRZ-absent scenario on a concrete OCR text, where
the merged FieldSet equals the OCR FieldSet unchanged. -/
theorem C4_witness :
    frenchcarte.final_info (frenchcarte.extract_mrz_info none)
        (frenchcarte.extract_info_from_ocr_text "Sexe: M".toList)
        (frenchcarte.extract_taille "Sexe: M".toList) =
      frenchcarte.extract_info_from_ocr_text "Sexe: M".toList :=
  (C4_field_merger ("Sexe: M".toList) none).2.2.2 rfl

/-- C5: the Prénom entry produced by the ID-card MRZ field mapper follows
exactly the first-name derivation worded by the claim (captured by
`prenom_spec`), for every raw MRZ record; and the passport variant, which
removes the surname unconditionally with no fallback, yields an empty
first name on a record whose names field equals its surname. -/
theorem C5_first_name_derivation :
    (∀ raw : RawMrz,
      lookupF frenchcarte.keyPrenom (frenchcarte.extract_mrz_info (some raw)) =
        some (prenom_spec
          (pyTitle (pyStrip (pyReplace raw.surname [chLt] [' '])))
          (pyTitle (pyStrip (pyReplace raw.names [chLt] [' ']))))) ∧
    ((indian_passport.extract_mrz_info (some rawSameName)).bind
        (lookupF indian_passport.keyFirst) = some []) := by
  constructor
  · intro raw
    simp only [frenchcarte.extract_mrz_info, prenom_spec]
    rw [lookupF_cons, if_neg (by decide), lookupF_cons, if_neg (by decide),
      lookupF_cons, if_neg (by decide), lookupF_cons, if_neg (by decide),
      lookupF_cons, if_pos rfl]
    by_cases hn : pyTitle (pyStrip (pyReplace raw.names [chLt] [' '])) = []
    · simp [hn]
    · simp [hn]
  · decide

/-- C6: height extraction: when the OCR text contains a Taille label
followed by separators and a non-empty maximal run of digits, dots and
commas, the extracted value is that run with commas turned into dots;
when the text cannot contain the label (no letter T at all), the value is
the explicit placeholder; the Taille label is present in the extractor
output for EVERY text, with exactly the extracted height value; the
claim example evaluates as stated; and on a text matching no pattern the
FieldSet consists of the Taille placeholder alone (all other fields are
omitted). -/
theorem C6_taille_extraction :
    (∀ pre sep run rest : PyStr,
      (∀ c ∈ pre, c ≠ 'T' ∧ c ≠ 't') →
      (∀ c ∈ sep, frenchcarte.wsColonCl c = true) →
      run ≠ [] →
      (∀ c ∈ run, frenchcarte.tailleCls c = true) →
      (rest = [] ∨ ∃ c cs, rest = c :: cs ∧ frenchcarte.tailleCls c = false) →
      frenchcarte.extract_taille
          (pre ++ (frenchcarte.litTaille ++ (sep ++ (run ++ rest)))) =
        run.map (fun c => if c = ',' then '.' else c)) ∧
    (∀ t : PyStr, (∀ c ∈ t, c ≠ 'T' ∧ c ≠ 't') →
      frenchcarte.extract_taille t = nonPrecise) ∧
    (∀ t : PyStr,
      lookupF frenchcarte.keyTaille (frenchcarte.extract_info_from_ocr_text t) =
        some (frenchcarte.extract_taille t)) ∧
    frenchcarte.extract_taille "Taille: 1,75".toList = "1.75".toList ∧
    frenchcarte.extract_info_from_ocr_text "no label here".toList =
      [(frenchcarte.keyTaille, nonPrecise)] := by
  refine ⟨extract_taille_found, extract_taille_miss, lookup_taille_always,
    by decide, by decide⟩

/-- Witness for C6: the claim example decomposed as label, separators,
digit run; the hypotheses are discharged on the concrete pieces. -/
theorem C6_witness :
    frenchcarte.extract_taille
        ([] ++ (frenchcarte.litTaille ++ ([':', ' '] ++ ("1,75".toList ++ [])))) =
      "1.75".toList := by
  have h := C6_taille_extraction.1 [] [':', ' '] ("1,75".toList) []
    (by simp) (by decide) (by decide) (by decide) (Or.inl rfl)
  rw [h]; decide

/-- Witness for C3: the resolving example of the claim, by the theorem. -/
theorem C3_witness :
    frenchcarte.get_country_fullname "FRA".toList = "France (FRA)".toList :=
  C3_country_expander.2.1

/-- Witness for C5: the ID-card derivation evaluated on the concrete
record whose names field equals its surname. -/
theorem C5_witness :
    lookupF frenchcarte.keyPrenom (frenchcarte.extract_mrz_info (some rawSameName)) =
      some (prenom_spec
        (pyTitle (pyStrip (pyReplace rawSameName.surname [chLt] [' '])))
        (pyTitle (pyStrip (pyReplace rawSameName.names [chLt] [' '])))) :=
  C5_first_name_derivation.1 rawSameName

/-- Witness for C9: a leading space never changes the ID-card result,
instantiated on the claim example. -/
theorem C9_witness :
    frenchcarte.convert_date (' ' :: "850101".toList) =
      frenchcarte.convert_date "850101".toList :=
  C9_whitespace_stripping.1 ("850101".toList)
